import Mathlib

/-!
Verification of the kindle-sender scheduled delivery engine.

This development shallowly embeds the scheduled-send Netlify function
(the canonical iteration importing `generateKindleEpub`, plus the earlier
iteration that builds EPUB chapters inline) and proves the specified
properties of the schedule matcher, delivery gate, issue numbering,
failure isolation, outcome recording, and the chapter-title helpers.

External collaborators (the Intl date formatters, the WHATWG URL parser,
the EPUB encoder, the mail transport, and the reachability of the
persistence store) are modelled as explicit environment parameters, as the
source treats them as black boxes; everything the repository's own code
computes is translated directly from the source.
-/

namespace KindleSender

/-! ## JavaScript-semantics helpers -/

/-- JS `x || d` for an optional string field: `null`/`undefined` and the
empty string are falsy. -/
def jsOrStr (v : Option String) (d : String) : String :=
  match v with
  | none => d
  | some t => if t = "" then d else t

/-- JS `x || d` for an optional integer field: `null`/`undefined` and `0`
are falsy. -/
def jsOrInt (v : Option Int) (d : Int) : Int :=
  match v with
  | none => d
  | some k => if k = 0 then d else k

/-- Whitespace characters stripped by JS `String.prototype.trim`. -/
def jsWhitespace (c : Char) : Bool :=
  c = ' ' || c = '\t' || c = '\n' || c = '\r' || c = '\x0b' || c = '\x0c' || c = ' '

/-- JS `String.prototype.trim`: strip leading and trailing whitespace. -/
def jsTrim (s : String) : String :=
  ⟨((s.data.dropWhile jsWhitespace).reverse.dropWhile jsWhitespace).reverse⟩

/-- Leading decimal digits of a character list. -/
def takeDigits (l : List Char) : List Char :=
  l.takeWhile (fun c => c.isDigit)

/-- Numeric value of a list of decimal digits. -/
def digitsToNat (l : List Char) : Nat :=
  l.foldl (fun acc c => acc * 10 + (c.toNat - '0'.toNat)) 0

/-- JS `parseInt(s, 10)`: skip leading whitespace, optional sign, then
leading digits; `none` models `NaN`. -/
def jsParseInt (s : String) : Option Int :=
  match s.data.dropWhile jsWhitespace with
  | '-' :: rest =>
    let d := takeDigits rest
    if d.isEmpty then none else some (-(digitsToNat d : Int))
  | '+' :: rest =>
    let d := takeDigits rest
    if d.isEmpty then none else some ((digitsToNat d : Int))
  | l =>
    let d := takeDigits l
    if d.isEmpty then none else some ((digitsToNat d : Int))

/-- JS strict equality `a === b` on numbers where `none` models `NaN`
(`NaN === x` is always false). -/
def jsNumEq (a b : Option Int) : Bool :=
  match a, b with
  | some x, some y => x == y
  | _, _ => false

/-! ## Time Resolver (`getCurrentDayAndHour`) -/

/-- The `DAY_ABBREV` table: JS day number (0 = Sunday) to 3-letter token. -/
def DAY_ABBREV : Nat → Option String
  | 0 => some "sun"
  | 1 => some "mon"
  | 2 => some "tue"
  | 3 => some "wed"
  | 4 => some "thu"
  | 5 => some "fri"
  | 6 => some "sat"
  | _ => none

/-- JS `Date.prototype.getUTCDay` for an epoch instant in milliseconds
(1970-01-01 was a Thursday, day number 4). -/
def getUTCDay (nowMs : Nat) : Nat :=
  (nowMs / 86400000 + 4) % 7

/-- JS `Date.prototype.getUTCHours` for an epoch instant in milliseconds. -/
def getUTCHours (nowMs : Nat) : Nat :=
  nowMs / 3600000 % 24

/-- Environment modelling the `Intl.DateTimeFormat` collaborators: for a
timezone string, `none` means the formatter constructor throws (invalid
timezone); otherwise it yields the formatted weekday string and the value
of the `hour` formatted part (when found). -/
def IntlEnv : Type := String → Option (String × Option String)

/-- JS `String.prototype.slice(0, 3)`. -/
def slice3 (s : String) : String :=
  ⟨s.data.take 3⟩

/-- JS `String.prototype.toLowerCase` (character-wise lowering). -/
def jsToLower (s : String) : String :=
  ⟨s.data.map Char.toLower⟩

/-- The source's `getCurrentDayAndHour`: format weekday and hour in the
given timezone; on an invalid timezone fall back to the UTC fields of the
current instant.  The hour is `Option Int` with `none` modelling `NaN`. -/
def getCurrentDayAndHour (intl : IntlEnv) (nowMs : Nat) (tz : String) :
    String × Option Int :=
  match intl tz with
  | some (weekdayRaw, hourRaw) =>
    let dayStr := slice3 (jsToLower weekdayRaw)
    let hour : Option Int :=
      match hourRaw with
      | some hv => jsParseInt hv
      | none => some 0
    (dayStr, hour)
  | none =>
    (jsOrStr (DAY_ABBREV (getUTCDay nowMs)) "mon", some ((getUTCHours nowMs : Int)))

/-! ## Data model -/

/-- Article delivery status. -/
inductive ArticleStatus where
  | queued
  | sent
deriving DecidableEq, Repr

/-- A queued article row. -/
structure Article where
  id : Nat
  userId : Nat
  url : String
  title : Option String
  author : Option String
  content : Option String
  readTimeMinutes : Option Nat
  status : ArticleStatus
  createdAt : Nat
  sentAt : Option Nat
deriving DecidableEq, Repr

/-- Send-history record status. -/
inductive SendStatus where
  | success
  | failed
deriving DecidableEq, Repr

/-- A `send_history` row. -/
structure SendRecord where
  userId : Nat
  articleCount : Nat
  status : SendStatus
  issueNumber : Option Nat
  errorMessage : Option String
deriving DecidableEq, Repr

/-- A user's settings row as selected by the scheduled-send query (all
required email/schedule fields are non-null by the query's filters). -/
structure Settings where
  userId : Nat
  kindleEmail : String
  senderEmail : String
  smtpPassword : String
  scheduleDays : List String
  scheduleTime : String
  timezone : Option String
  minArticleCount : Option Int
deriving DecidableEq, Repr

/-! ## Schedule Matcher -/

/-- JS `String.prototype.split` with a one-character separator, on
character lists (`"".split(sep)` is `[""]`). -/
def splitChar (sep : Char) : List Char → List (List Char)
  | [] => [[]]
  | c :: rest =>
    if c = sep then [] :: splitChar sep rest
    else
      match splitChar sep rest with
      | [] => [[c]]
      | h :: t => (c :: h) :: t

/-- The first component of `s.split(sep)` (the `[hourStr]` destructuring;
`split` always yields at least one component). -/
def firstSplitComp (sep : Char) (s : String) : String :=
  ⟨(splitChar sep s.data).headD []⟩

/-- The predicate of the `matchingUsers` filter: resolve day and hour in
the user's timezone (defaulting via `||` to `"UTC"`), require the day to
be in `schedule_days` and `parseInt` of the first `":"`-separated
component of `schedule_time` to strictly equal the resolved hour. -/
def isDeliveryDue (intl : IntlEnv) (nowMs : Nat) (s : Settings) : Bool :=
  let tz := jsOrStr s.timezone "UTC"
  let dh := getCurrentDayAndHour intl nowMs tz
  if !(s.scheduleDays.contains dh.1) then false
  else
    let hourStr := firstSplitComp ':' s.scheduleTime
    jsNumEq (jsParseInt hourStr) dh.2

/-- The `matchingUsers` filter over all schedulable settings rows. -/
def matchingUsers (intl : IntlEnv) (nowMs : Nat) (allSettings : List Settings) :
    List Settings :=
  allSettings.filter (fun s => isDeliveryDue intl nowMs s)

/-! ## Article store query

The articles query returns the user's `status = queued` rows ordered by
`created_at` ascending.  The ordering is the store's contract; it is
modelled by a stable insertion sort on `createdAt`. -/

/-- Stable insert for the ascending-`createdAt` order. -/
def insertByCreated (a : Article) : List Article → List Article
  | [] => [a]
  | b :: rest =>
    if a.createdAt ≤ b.createdAt then a :: b :: rest
    else b :: insertByCreated a rest

/-- Stable sort by ascending `createdAt`. -/
def sortByCreated : List Article → List Article
  | [] => []
  | a :: rest => insertByCreated a (sortByCreated rest)

/-! ## Delivery Gate -/

/-- The `sendableArticles` filter predicate:
`a.content && a.content.trim().length > 0`. -/
def contentSendable (a : Article) : Bool :=
  match a.content with
  | none => false
  | some c => !(c == "") && (jsTrim c).length > 0

/-- The `sendableArticles` filter: queued articles with non-empty trimmed
content, in the order given. -/
def sendableOf (articles : List Article) : List Article :=
  articles.filter contentSendable

/-- The gate decision of the per-user unit: skip on an empty article
list, an empty sendable list, or `sendableArticles.length < minCount`
with `minCount = settings.min_article_count || 1`. -/
def gateProceeds (articles : List Article) (minArticleCount : Option Int) : Bool :=
  if articles.isEmpty then false
  else
    let sendable := sendableOf articles
    if sendable.isEmpty then false
    else !(decide ((sendable.length : Int) < jsOrInt minArticleCount 1))

/-- The effective minimum of the spec: `max(minArticleCount, 1)`. -/
def effectiveMin (minArticleCount : Option Int) : Int :=
  max (minArticleCount.getD 1) 1

/-! ## Issue Numbering -/

/-- Issue numbers of a user's `success` history records with a non-null
`issue_number`, in insertion order (the rows the issue-number query ranges
over). -/
def successIssues (h : List SendRecord) (u : Nat) : List Nat :=
  h.filterMap (fun r =>
    if r.userId = u ∧ r.status = SendStatus.success then r.issueNumber else none)

/-- Maximum of a list of naturals (0 on empty). -/
def listMax (l : List Nat) : Nat :=
  l.foldr Nat.max 0

/-- The source's next-issue computation: the issue-number query takes the
`success` row with the greatest non-null `issue_number` (order descending,
limit 1), and the code computes `(lastSend?.issue_number || 0) + 1`. -/
def nextIssueNumber (h : List SendRecord) (u : Nat) : Nat :=
  listMax (successIssues h u) + 1

/-! ## Persistent state and the per-user unit -/

/-- A mail-transport invocation (`transporter.sendMail`). -/
structure Mail where
  fromAddr : String
  toAddr : String
  subject : String
  htmlBody : String
deriving DecidableEq, Repr

/-- Observable state: the article and history stores, plus logs of mail
transport invocations and EPUB-generator invocations. -/
structure DbState where
  articles : List Article
  history : List SendRecord
  mails : List Mail
  epubCalls : Nat
deriving DecidableEq, Repr

/-- The queued-articles query for one user. -/
def queuedArticlesFor (st : DbState) (u : Nat) : List Article :=
  sortByCreated (st.articles.filter
    (fun a => a.userId == u && a.status == ArticleStatus.queued))

/-- Append one history record (`send_history` insert). -/
def insertHistory (st : DbState) (r : SendRecord) : DbState :=
  { st with history := st.history ++ [r] }

/-- The success-path article update: set `status = sent`, `sent_at = now`
on every row whose id is in the given id set. -/
def markSent (st : DbState) (ids : List Nat) (nowIso : Nat) : DbState :=
  { st with articles := st.articles.map (fun a =>
      if a.id ∈ ids then { a with status := ArticleStatus.sent, sentAt := some nowIso }
      else a) }

/-- The mail sent by the unit for a user's settings row. -/
def mailOf (s : Settings) : Mail :=
  { fromAddr := s.senderEmail, toAddr := s.kindleEmail
    subject := "Articles", htmlBody := "<div></div>" }

/-- Per-user environment: the outcomes of the unit's external calls.
`Except.error msg` models a thrown error with message `msg`; the `Throws`
booleans model a rejected store `await`, which propagates to the unit's
outer catch. -/
structure UnitEnv where
  articlesQueryError : Bool
  issueQueryThrows : Bool
  epubResult : Except String Unit
  epubFailInsertThrows : Bool
  emailSendResult : Except String Unit
  emailFailInsertThrows : Bool
  articlesUpdateThrows : Bool
  successInsertThrows : Bool
  nowIso : Nat
deriving Repr

/-- The body of one user's processing unit (the interior of the outer
`try`).  `Except.error st` models an uncaught throw escaping to the outer
catch with the store state at that point. -/
def processUserBody (env : UnitEnv) (s : Settings) (st : DbState) :
    Except DbState DbState :=
  if env.articlesQueryError then Except.ok st
  else
    let articles := queuedArticlesFor st s.userId
    if articles.isEmpty then Except.ok st
    else
      let sendable := sendableOf articles
      if sendable.isEmpty then Except.ok st
      else
        if (sendable.length : Int) < jsOrInt s.minArticleCount 1 then Except.ok st
        else
          if env.issueQueryThrows then Except.error st
          else
            let issue := nextIssueNumber st.history s.userId
            let st1 := { st with epubCalls := st.epubCalls + 1 }
            match env.epubResult with
            | Except.error msg =>
              if env.epubFailInsertThrows then Except.error st1
              else Except.ok (insertHistory st1
                { userId := s.userId, articleCount := sendable.length
                  status := SendStatus.failed, issueNumber := none
                  errorMessage := some ("Scheduled send — EPUB generation failed: " ++ msg) })
            | Except.ok _ =>
              let st2 := { st1 with mails := st1.mails ++ [mailOf s] }
              match env.emailSendResult with
              | Except.error msg =>
                if env.emailFailInsertThrows then Except.error st2
                else Except.ok (insertHistory st2
                  { userId := s.userId, articleCount := sendable.length
                    status := SendStatus.failed, issueNumber := none
                    errorMessage := some ("Scheduled send — Email failed: " ++ msg) })
              | Except.ok _ =>
                if env.articlesUpdateThrows then Except.error st2
                else
                  let st3 := markSent st2 (sendable.map (fun a => a.id)) env.nowIso
                  if env.successInsertThrows then Except.error st3
                  else Except.ok (insertHistory st3
                    { userId := s.userId, articleCount := sendable.length
                      status := SendStatus.success, issueNumber := some issue
                      errorMessage := none })

/-- One user's processing unit with its boundary catch: an error thrown
anywhere inside the unit is caught and only logged, leaving the store
state reached so far. -/
def processUser (env : UnitEnv) (s : Settings) (st : DbState) : DbState :=
  match processUserBody env s st with
  | Except.ok st' => st'
  | Except.error st' => st'

/-- The sequential batch loop over the matching users. -/
def runBatch (envs : Nat → UnitEnv) (users : List Settings) (st : DbState) :
    DbState :=
  users.foldl (fun acc s => processUser (envs s.userId) s acc) st

/-- Environment of one handler invocation. -/
structure HandlerEnv where
  envVarsPresent : Bool
  settingsQueryError : Bool
  allSettings : List Settings
  intl : IntlEnv
  nowMs : Nat
  unitEnvs : Nat → UnitEnv

/-- The scheduled-send entry point: early returns for missing env vars, a
failed settings query, no configured users, or no matching users;
otherwise run the batch loop and return the completion response. -/
def handler (he : HandlerEnv) (st : DbState) : DbState × String :=
  if !he.envVarsPresent then (st, "Missing env vars")
  else if he.settingsQueryError then (st, "Settings query failed")
  else if he.allSettings.isEmpty then (st, "No scheduled sends")
  else
    let matching := matchingUsers he.intl he.nowMs he.allSettings
    if matching.isEmpty then (st, "No matching schedules")
    else (runBatch he.unitEnvs matching st, "Scheduled send complete")

/-! ## Artifact chapter assembly (inline-chapters iteration)

The earlier scheduled-send iteration builds EPUB chapter objects inline
from the sendable articles; `new URL(url).hostname` is the external
WHATWG URL parser, modelled as an environment `String → Option String`
(`none` means the constructor throws). -/

/-- Prefix test on character lists (is `pat` an initial segment?). -/
def hasPre (pat s : List Char) : Bool :=
  match pat, s with
  | [], _ => true
  | _ :: _, [] => false
  | p :: ps, c :: cs => p == c && hasPre ps cs

/-- JS `String.prototype.replace` with a plain string pattern on
character lists: replace the first occurrence of `pat` by `rep`. -/
def replaceFirstL (pat rep : List Char) : List Char → List Char
  | [] => if pat.isEmpty then rep else []
  | c :: cs =>
    if hasPre pat (c :: cs) then rep ++ (c :: cs).drop pat.length
    else c :: replaceFirstL pat rep cs

/-- JS `s.replace(pat, rep)` for a plain string pattern: first occurrence
only. -/
def jsReplaceFirst (pat rep s : String) : String :=
  ⟨replaceFirstL pat.data rep.data s.data⟩

/-- The source's `extractDomain`: hostname of the parsed URL with the
first `"www."` removed; on a parse failure the input is returned
unchanged.  `parseHost` models `new URL(url).hostname`. -/
def extractDomain (parseHost : String → Option String) (url : String) : String :=
  match parseHost url with
  | some host => jsReplaceFirst "www." "" host
  | none => url

/-- Replace every occurrence of the character `c` by `rep`
(JS `replace(/c/g, rep)`). -/
def replaceAllChar (c : Char) (rep : String) (s : String) : String :=
  ⟨s.data.foldr (fun x acc => if x = c then rep.data ++ acc else x :: acc) []⟩

/-- The source's `escapeHtml`: the chained global replaces of
`&`, `<`, `>`, `"`. -/
def escapeHtml (s : String) : String :=
  replaceAllChar '"' "&quot;"
    (replaceAllChar '>' "&gt;"
      (replaceAllChar '<' "&lt;"
        (replaceAllChar '&' "&amp;" s)))

/-- JS `[a, b].filter(Boolean).join(sep)`. -/
def jsJoinTruthy (sep : String) (parts : List String) : String :=
  match parts.filter (fun p => !(p == "")) with
  | [] => ""
  | x :: xs => xs.foldl (fun acc p => acc ++ sep ++ p) x

/-- One EPUB chapter object. -/
structure Chapter where
  title : String
  content : String
  filename : String
deriving DecidableEq, Repr

/-- The chapter built for the article at index `i` of the sendable list:
title from `article.title || extractDomain(article.url)` with the read
time appended via `filter(Boolean).join(" · ")`, a metadata line
prepended to the content, and an indexed filename. -/
def chapterOf (parseHost : String → Option String) (a : Article) (i : Nat) :
    Chapter :=
  let titleText := jsOrStr a.title (extractDomain parseHost a.url)
  let readTime :=
    match a.readTimeMinutes with
    | some n => if n = 0 then "" else toString n ++ " min"
    | none => ""
  let tocTitle := jsJoinTruthy " · " [titleText, readTime]
  let authorDisplay := jsOrStr a.author (extractDomain parseHost a.url)
  let metaParts := jsJoinTruthy " · "
    [authorDisplay, if readTime == "" then "" else readTime ++ " read"]
  { title := tocTitle
    content := "<p class=\"meta\">" ++ escapeHtml metaParts ++ "</p>\n"
      ++ (a.content.getD "")
    filename := "article_" ++ toString i ++ ".xhtml" }

/-- The indexed map of `sendableArticles.map((article, i) => ...)`. -/
def chaptersAux (parseHost : String → Option String) (i : Nat) :
    List Article → List Chapter
  | [] => []
  | a :: rest => chapterOf parseHost a i :: chaptersAux parseHost (i + 1) rest

/-- The chapter list built from the sendable articles, in order. -/
def chaptersOf (parseHost : String → Option String) (sendable : List Article) :
    List Chapter :=
  chaptersAux parseHost 0 sendable

/-- The read-time title suffix of the spec: append `" · N min"` when the
article carries a (truthy) read time. -/
def rtSuffix (a : Article) : String :=
  match a.readTimeMinutes with
  | some n => if n = 0 then "" else " · " ++ toString n ++ " min"
  | none => ""

/-- Modelled from the spec's words, not the source, for comparison with
the code's `chapterOf`: display title = the article's title when present,
otherwise the URL host with a *leading* `"www."` stripped; append
`" · N min"` when `readTimeMinutes` is *present*. -/
def claimChapterTitle (host : String) (a : Article) : String :=
  let base :=
    match a.title with
    | some t => t
    | none => if hasPre "www.".data host.data then ⟨host.data.drop 4⟩ else host
  match a.readTimeMinutes with
  | some n => base ++ " · " ++ toString n ++ " min"
  | none => base

/-! ## Effect characterization of one unit

`unitEffects` recomputes, from a unit's environment and its inputs (the
user's queued articles and next issue number), exactly which rows the unit
marks sent, which history records it inserts, which mails it attempts and
whether it invokes the EPUB generator.  It is connected to `processUser`
by a proved characterization lemma. -/

/-- The user-scoped slice of the history store. -/
def historyFor (st : DbState) (u : Nat) : List SendRecord :=
  st.history.filter (fun r => r.userId == u)

/-- The observable effects of one user's unit. -/
structure UnitEffects where
  marks : List Nat
  recs : List SendRecord
  mailsOut : List Mail
  epubDelta : Nat
  nowIso : Nat
deriving DecidableEq, Repr

/-- Apply a unit's effects to the store state. -/
def applyEffects (st : DbState) (e : UnitEffects) : DbState :=
  { articles := st.articles.map (fun a =>
      if a.id ∈ e.marks then
        { a with status := ArticleStatus.sent, sentAt := some e.nowIso }
      else a)
    history := st.history ++ e.recs
    mails := st.mails ++ e.mailsOut
    epubCalls := st.epubCalls + e.epubDelta }

/-- The effects of one unit as a function of its environment, the user's
settings, the queued-article query result and the computed issue number. -/
def unitEffects (env : UnitEnv) (s : Settings) (queued : List Article)
    (issue : Nat) : UnitEffects :=
  if env.articlesQueryError then ⟨[], [], [], 0, env.nowIso⟩
  else if queued.isEmpty then ⟨[], [], [], 0, env.nowIso⟩
  else
    let sendable := sendableOf queued
    if sendable.isEmpty then ⟨[], [], [], 0, env.nowIso⟩
    else if (sendable.length : Int) < jsOrInt s.minArticleCount 1 then
      ⟨[], [], [], 0, env.nowIso⟩
    else if env.issueQueryThrows then ⟨[], [], [], 0, env.nowIso⟩
    else
      match env.epubResult with
      | Except.error msg =>
        if env.epubFailInsertThrows then ⟨[], [], [], 1, env.nowIso⟩
        else ⟨[], [{ userId := s.userId, articleCount := sendable.length
                     status := SendStatus.failed, issueNumber := none
                     errorMessage := some ("Scheduled send — EPUB generation failed: " ++ msg) }],
              [], 1, env.nowIso⟩
      | Except.ok _ =>
        match env.emailSendResult with
        | Except.error msg =>
          if env.emailFailInsertThrows then ⟨[], [], [mailOf s], 1, env.nowIso⟩
          else ⟨[], [{ userId := s.userId, articleCount := sendable.length
                       status := SendStatus.failed, issueNumber := none
                       errorMessage := some ("Scheduled send — Email failed: " ++ msg) }],
                [mailOf s], 1, env.nowIso⟩
        | Except.ok _ =>
          if env.articlesUpdateThrows then ⟨[], [], [mailOf s], 1, env.nowIso⟩
          else if env.successInsertThrows then
            ⟨sendable.map (fun a => a.id), [], [mailOf s], 1, env.nowIso⟩
          else
            ⟨sendable.map (fun a => a.id),
             [{ userId := s.userId, articleCount := sendable.length
                status := SendStatus.success, issueNumber := some issue
                errorMessage := none }],
             [mailOf s], 1, env.nowIso⟩

/-! ## Characterization of one unit -/

/-- One user's unit equals the application of its characterized effects. -/
theorem processUser_eq (env : UnitEnv) (s : Settings) (st : DbState) :
    processUser env s st
      = applyEffects st (unitEffects env s (queuedArticlesFor st s.userId)
          (nextIssueNumber st.history s.userId)) := by
  by_cases h1 : env.articlesQueryError
  · simp [processUser, processUserBody, unitEffects, h1, applyEffects]
  · by_cases h2 : (queuedArticlesFor st s.userId).isEmpty
    · simp [processUser, processUserBody, unitEffects, h1, h2, applyEffects]
    · by_cases h3 : (sendableOf (queuedArticlesFor st s.userId)).isEmpty
      · simp [processUser, processUserBody, unitEffects, h1, h2, h3, applyEffects]
      · by_cases h4 : ((sendableOf (queuedArticlesFor st s.userId)).length : Int)
            < jsOrInt s.minArticleCount 1
        · simp [processUser, processUserBody, unitEffects, h1, h2, h3, h4, applyEffects]
        · by_cases h5 : env.issueQueryThrows
          · simp [processUser, processUserBody, unitEffects, h1, h2, h3, h4, h5, applyEffects]
          · rcases hep : env.epubResult with msg | u
            · by_cases h6 : env.epubFailInsertThrows
              · simp [processUser, processUserBody, unitEffects, h1, h2, h3, h4, h5, hep, h6,
                  applyEffects]
              · simp [processUser, processUserBody, unitEffects, h1, h2, h3, h4, h5, hep, h6,
                  applyEffects, insertHistory]
            · rcases hem : env.emailSendResult with msg | v
              · by_cases h7 : env.emailFailInsertThrows
                · simp [processUser, processUserBody, unitEffects, h1, h2, h3, h4, h5, hep, hem,
                    h7, applyEffects]
                · simp [processUser, processUserBody, unitEffects, h1, h2, h3, h4, h5, hep, hem,
                    h7, applyEffects, insertHistory]
              · by_cases h8 : env.articlesUpdateThrows
                · simp [processUser, processUserBody, unitEffects, h1, h2, h3, h4, h5, hep, hem,
                    h8, applyEffects]
                · by_cases h9 : env.successInsertThrows
                  · simp [processUser, processUserBody, unitEffects, h1, h2, h3, h4, h5, hep, hem,
                      h8, h9, applyEffects, markSent]
                  · simp [processUser, processUserBody, unitEffects, h1, h2, h3, h4, h5, hep, hem,
                      h8, h9, applyEffects, markSent, insertHistory]

/-- The inserted records are empty, a single failed record of the unit's
user, or the single success record carrying the computed issue number and
the sendable count. -/
theorem unitEffects_recs_cases (env : UnitEnv) (s : Settings)
    (queued : List Article) (issue : Nat) :
    (unitEffects env s queued issue).recs = []
    ∨ (∃ cnt msg, (unitEffects env s queued issue).recs
        = [{ userId := s.userId, articleCount := cnt, status := SendStatus.failed
             issueNumber := none, errorMessage := some msg }])
    ∨ (unitEffects env s queued issue).recs
        = [{ userId := s.userId, articleCount := (sendableOf queued).length
             status := SendStatus.success, issueNumber := some issue
             errorMessage := none }] := by
  unfold unitEffects
  repeat' split
  all_goals simp
  all_goals by_cases hse : sendableOf queued = []
  all_goals simp [hse]
  all_goals by_cases hlt : ((sendableOf queued).length : Int) < jsOrInt s.minArticleCount 1
  all_goals simp [hse, hlt]

/-- Every record a unit inserts belongs to the unit's own user. -/
theorem unitEffects_recs_userId (env : UnitEnv) (s : Settings)
    (queued : List Article) (issue : Nat) :
    ∀ r ∈ (unitEffects env s queued issue).recs, r.userId = s.userId := by
  intro r hr
  rcases unitEffects_recs_cases env s queued issue with h | ⟨cnt, msg, h⟩ | h <;>
    rw [h] at hr <;> simp at hr <;> simp [hr]

/-- The marked id set is empty or exactly the ids of the user's sendable
queued articles. -/
theorem unitEffects_marks_cases (env : UnitEnv) (s : Settings)
    (queued : List Article) (issue : Nat) :
    (unitEffects env s queued issue).marks = []
    ∨ (unitEffects env s queued issue).marks
        = (sendableOf queued).map (fun a => a.id) := by
  unfold unitEffects
  repeat' split
  all_goals simp
  all_goals by_cases hse : sendableOf queued = []
  all_goals simp [hse]
  all_goals by_cases hlt : ((sendableOf queued).length : Int) < jsOrInt s.minArticleCount 1
  all_goals simp [hse, hlt]

/-- Every id a unit marks sent is the id of one of the user's sendable
queued articles. -/
theorem unitEffects_marks_mem (env : UnitEnv) (s : Settings)
    (queued : List Article) (issue : Nat) :
    ∀ i ∈ (unitEffects env s queued issue).marks,
      ∃ a, a ∈ sendableOf queued ∧ a.id = i := by
  intro i hi
  rcases unitEffects_marks_cases env s queued issue with h | h
  · rw [h] at hi
    simp at hi
  · rw [h] at hi
    simp at hi
    obtain ⟨a, ha, rfl⟩ := hi
    exact ⟨a, ha, rfl⟩

/-! ## Small helper lemmas -/

/-- A string is nonempty iff its length is positive. -/
theorem string_pos_iff (s : String) : 0 < s.length ↔ s ≠ "" := by
  constructor
  · intro h hc
    subst hc
    exact absurd h (by decide)
  · intro h
    have hd : s.data ≠ [] := fun hd => h (String.ext hd)
    exact List.length_pos.mpr hd

/-- The sendable-content predicate holds iff the trimmed content is a
non-empty string. -/
theorem contentSendable_iff (a : Article) :
    contentSendable a = true ↔ jsTrim (a.content.getD "") ≠ "" := by
  unfold contentSendable
  cases hc : a.content with
  | none =>
    simp [Option.getD]
    rfl
  | some c =>
    simp only [Option.getD, Bool.and_eq_true, bne_iff_ne, ne_eq, decide_eq_true_eq,
      Bool.not_eq_true', beq_eq_false_iff_ne]
    constructor
    · rintro ⟨h1, h2⟩ hcon
      rw [hcon] at h2
      exact absurd h2 (by decide)
    · intro h
      refine ⟨?_, ?_⟩
      · intro hc0
        subst hc0
        exact h rfl
      · exact (string_pos_iff _).mpr h

/-- Each element of a list is bounded by the list maximum. -/
theorem le_listMax (l : List Nat) : ∀ x ∈ l, x ≤ listMax l := by
  induction l with
  | nil => intro x hx; exact absurd hx (List.not_mem_nil x)
  | cons a t ih =>
    intro x hx
    rcases List.mem_cons.mp hx with rfl | hx
    · exact Nat.le_max_left _ _
    · exact Nat.le_trans (ih x hx) (Nat.le_max_right _ _)

/-- An upper bound for all elements bounds the list maximum. -/
theorem listMax_le (l : List Nat) (n : Nat) (h : ∀ x ∈ l, x ≤ n) :
    listMax l ≤ n := by
  induction l with
  | nil => exact Nat.zero_le n
  | cons a t ih =>
    refine Nat.max_le.mpr ⟨h a (List.mem_cons_self a t), ih ?_⟩
    intro x hx
    exact h x (List.mem_cons_of_mem a hx)

/-- Applying empty effects is a no-op. -/
theorem applyEffects_noop (st : DbState) (now : Nat) :
    applyEffects st ⟨[], [], [], 0, now⟩ = st := by
  simp [applyEffects]

/-- Below the effective minimum, a unit has no effects at all. -/
theorem unitEffects_below_min (env : UnitEnv) (s : Settings)
    (queued : List Article) (issue : Nat)
    (h : ((sendableOf queued).length : Int) < effectiveMin s.minArticleCount) :
    unitEffects env s queued issue = ⟨[], [], [], 0, env.nowIso⟩ := by
  unfold unitEffects
  by_cases h1 : env.articlesQueryError
  · simp [h1]
  · by_cases h2 : queued.isEmpty
    · simp [h1, h2]
    · by_cases h3 : (sendableOf queued).isEmpty
      · simp [h1, h2, h3]
      · have hpos : 0 < (sendableOf queued).length :=
          List.length_pos.mpr (by simpa [List.isEmpty_iff] using h3)
        have hlt : ((sendableOf queued).length : Int) < jsOrInt s.minArticleCount 1 := by
          unfold effectiveMin at h
          cases hm : s.minArticleCount with
          | none => simpa [jsOrInt] using (by simpa [hm] using h)
          | some k =>
            rw [hm] at h
            simp only [Option.getD] at h
            by_cases hk : k = 0
            · subst hk
              simpa [jsOrInt] using (by omega : ((sendableOf queued).length : Int) < 1)
            · have : ((sendableOf queued).length : Int) < k := by
                rcases le_or_lt 1 k with hk1 | hk1
                · omega
                · omega
              simpa [jsOrInt, hk]
        simp [h1, h2, h3, hlt]

/-! ## Claim theorems -/

/-- C2: the delivery gate's sendable set is exactly the articles whose
content is non-empty after trimming whitespace, in the order given, and
delivery proceeds iff the sendable count is at least
`max(minArticleCount, 1)`. -/
theorem c2_delivery_gate (articles : List Article) (m : Option Int) :
    sendableOf articles
      = articles.filter (fun a => decide (jsTrim (a.content.getD "") ≠ ""))
    ∧ (gateProceeds articles m = true
        ↔ effectiveMin m ≤ ((sendableOf articles).length : Int)) := by
  constructor
  · refine List.filter_congr ?_
    intro a _
    cases hb : contentSendable a with
    | false =>
      have hno : ¬ jsTrim (a.content.getD "") ≠ "" := fun hcon => by
        have := (contentSendable_iff a).mpr hcon
        rw [hb] at this
        cases this
      simp only [ne_eq, not_not] at hno
      simp [hno]
    | true =>
      have := (contentSendable_iff a).mp hb
      simp [this]
  · have hsendlen : ∀ minv : Option Int,
        (effectiveMin minv ≤ ((sendableOf articles).length : Int)
          ↔ minv.getD 1 ≤ ((sendableOf articles).length : Int)
            ∧ 1 ≤ ((sendableOf articles).length : Int)) := by
      intro minv
      unfold effectiveMin
      exact max_le_iff
    unfold gateProceeds
    by_cases h1 : articles.isEmpty
    · have ha : articles = [] := by simpa [List.isEmpty_iff] using h1
      subst ha
      rw [hsendlen m]
      simp [sendableOf]
    · rw [hsendlen m]
      simp only [h1, if_false]
      by_cases h2 : (sendableOf articles).isEmpty
      · have h2' : sendableOf articles = [] := by
          simpa [List.isEmpty_iff] using h2
        rw [h2']
        simp [h2]
      · have hpos : 0 < (sendableOf articles).length :=
          List.length_pos.mpr (by simpa [List.isEmpty_iff] using h2)
        cases m with
        | none =>
          simp [h2, jsOrInt, Option.getD]
          exact Iff.symm List.length_pos
        | some k =>
          by_cases hk : k = 0
          · subst hk
            simp [h2, jsOrInt, Option.getD]
            exact Iff.symm List.length_pos
          · simp [h2, jsOrInt, Option.getD, hk]
            omega

/-- C3: the next issue number is the greatest issue number among the
user's success records plus one, and 1 when the user has no success
record. -/
theorem c3_next_issue (h : List SendRecord) (u : Nat) :
    (∀ n, n ∈ successIssues h u → (∀ m ∈ successIssues h u, m ≤ n) →
      nextIssueNumber h u = n + 1)
    ∧ (successIssues h u = [] → nextIssueNumber h u = 1) := by
  constructor
  · intro n hn hmax
    unfold nextIssueNumber
    have h1 := le_listMax _ _ hn
    have h2 := listMax_le _ n hmax
    omega
  · intro he
    unfold nextIssueNumber
    rw [he]
    rfl

/-- Witness for C3: with success issues `[2, 3]` of user 1 (and a failed
record in between), the maximum 3 yields next issue 4; a fresh user
yields 1. -/
theorem c3_next_issue_witness :
    (3 ∈ successIssues
        [{ userId := 1, articleCount := 2, status := SendStatus.success
           issueNumber := some 2, errorMessage := none },
         { userId := 1, articleCount := 1, status := SendStatus.failed
           issueNumber := none, errorMessage := some "Email failed" },
         { userId := 1, articleCount := 2, status := SendStatus.success
           issueNumber := some 3, errorMessage := none }] 1)
    ∧ nextIssueNumber
        [{ userId := 1, articleCount := 2, status := SendStatus.success
           issueNumber := some 2, errorMessage := none },
         { userId := 1, articleCount := 1, status := SendStatus.failed
           issueNumber := none, errorMessage := some "Email failed" },
         { userId := 1, articleCount := 2, status := SendStatus.success
           issueNumber := some 3, errorMessage := none }] 1 = 4
    ∧ successIssues [] 5 = [] ∧ nextIssueNumber [] 5 = 1 := by
  refine ⟨by decide, (c3_next_issue _ _).1 3 (by decide) (by decide), by decide,
    (c3_next_issue _ _).2 (by decide)⟩

/-- C7: a user whose sendable count is below the effective minimum
produces zero observable effects — the store state (articles, history,
mail invocations, EPUB-generator invocations) is unchanged. -/
theorem c7_below_threshold_noop (env : UnitEnv) (s : Settings) (st : DbState)
    (h : ((sendableOf (queuedArticlesFor st s.userId)).length : Int)
        < effectiveMin s.minArticleCount) :
    processUser env s st = st := by
  rw [processUser_eq, unitEffects_below_min env s _ _ h, applyEffects_noop]

/-- Witness for C7: one queued article with whitespace-only content and
one with content, minimum 3 — the unit leaves the state untouched even
with an environment that would otherwise fail everything. -/
theorem c7_below_threshold_noop_witness :
    ((sendableOf (queuedArticlesFor
        ⟨[⟨10, 1, "https://a.example", none, none, some "  ", none,
            ArticleStatus.queued, 0, none⟩,
          ⟨11, 1, "https://b.example", none, none, some "body", none,
            ArticleStatus.queued, 1, none⟩], [], [], 0⟩ 1)).length : Int)
      < effectiveMin (some 3)
    ∧ processUser
        ⟨false, true, Except.error "boom", true, Except.error "boom", true, true, true, 99⟩
        ⟨1, "k@kindle.com", "me@gmail.com", "pw", ["mon"], "09:00", none, some 3⟩
        ⟨[⟨10, 1, "https://a.example", none, none, some "  ", none,
            ArticleStatus.queued, 0, none⟩,
          ⟨11, 1, "https://b.example", none, none, some "body", none,
            ArticleStatus.queued, 1, none⟩], [], [], 0⟩
      = ⟨[⟨10, 1, "https://a.example", none, none, some "  ", none,
            ArticleStatus.queued, 0, none⟩,
          ⟨11, 1, "https://b.example", none, none, some "body", none,
            ArticleStatus.queued, 1, none⟩], [], [], 0⟩ := by
  refine ⟨by decide, c7_below_threshold_noop _ _ _ (by decide)⟩

/-- C8: on an unrecognized or invalid timezone the time resolver falls
back to the instant's UTC fields without raising (the embedding is a
total function): the weekday token comes from `DAY_ABBREV` of the UTC
day, the hour is the UTC hour, the token is one of the seven weekday
abbreviations and the hour lies in `[0, 23]`. -/
theorem c8_timezone_fallback (intl : IntlEnv) (nowMs : Nat) (tz : String)
    (hinv : intl tz = none) :
    getCurrentDayAndHour intl nowMs tz
      = (jsOrStr (DAY_ABBREV (getUTCDay nowMs)) "mon", some ((getUTCHours nowMs : Int)))
    ∧ (getCurrentDayAndHour intl nowMs tz).1
        ∈ (["sun", "mon", "tue", "wed", "thu", "fri", "sat"] : List String)
    ∧ ∀ h : Int, (getCurrentDayAndHour intl nowMs tz).2 = some h →
        0 ≤ h ∧ h ≤ 23 := by
  have heq : getCurrentDayAndHour intl nowMs tz
      = (jsOrStr (DAY_ABBREV (getUTCDay nowMs)) "mon",
          some ((getUTCHours nowMs : Int))) := by
    simp [getCurrentDayAndHour, hinv]
  refine ⟨heq, ?_, ?_⟩
  · rw [heq]
    have hd : getUTCDay nowMs < 7 := Nat.mod_lt _ (by omega)
    set d := getUTCDay nowMs with hdef
    interval_cases d <;> simp [jsOrStr, DAY_ABBREV]
  · intro h hh
    rw [heq] at hh
    simp at hh
    have hlt : getUTCHours nowMs < 24 := Nat.mod_lt _ (by omega)
    omega

/-- Witness for C8: an environment rejecting every timezone, at the
instant 18,000,000 ms (Thursday 1970-01-01 05:00 UTC). -/
theorem c8_timezone_fallback_witness :
    (fun (_ : String) => (none : Option (String × Option String))) "Bogus/Zone" = none
    ∧ getCurrentDayAndHour (fun _ => none) 18000000 "Bogus/Zone" = ("thu", some 5)
    ∧ ("thu" ∈ (["sun", "mon", "tue", "wed", "thu", "fri", "sat"] : List String))
    ∧ (0 : Int) ≤ 5 ∧ (5 : Int) ≤ 23 := by
  have h := c8_timezone_fallback (fun _ => none) 18000000 "Bogus/Zone" rfl
  refine ⟨rfl, by decide, by decide, h.2.2 5 (by decide)⟩

/-- C1: a schedulable profile (whose delivery-time hour parses) matches
iff its delivery-days set contains the weekday token resolved in its
timezone (defaulting to UTC when the field is absent or empty) and the
resolved hour equals the parsed hour; the minute component of the
delivery time is ignored — any delivery time with the same first
`":"`-component matches identically. -/
theorem c1_schedule_match (intl : IntlEnv) (nowMs : Nat) (s : Settings) (hh : Int)
    (hp : jsParseInt (firstSplitComp ':' s.scheduleTime) = some hh) :
    (isDeliveryDue intl nowMs s = true ↔
      (s.scheduleDays.contains
          (getCurrentDayAndHour intl nowMs (jsOrStr s.timezone "UTC")).1 = true
        ∧ (getCurrentDayAndHour intl nowMs (jsOrStr s.timezone "UTC")).2 = some hh))
    ∧ ∀ t' : String,
        firstSplitComp ':' t' = firstSplitComp ':' s.scheduleTime →
        isDeliveryDue intl nowMs { s with scheduleTime := t' }
          = isDeliveryDue intl nowMs s := by
  constructor
  · simp only [isDeliveryDue]
    rw [hp]
    by_cases hc : s.scheduleDays.contains
        (getCurrentDayAndHour intl nowMs (jsOrStr s.timezone "UTC")).1
    · rw [hc]
      simp only [Bool.not_true, if_false]
      cases hdh : (getCurrentDayAndHour intl nowMs (jsOrStr s.timezone "UTC")).2 with
      | none => simp [jsNumEq]
      | some y =>
        simp [jsNumEq]
        constructor
        · intro hxy; exact hxy.symm
        · intro hxy; exact hxy.symm
    · rw [Bool.not_eq_true] at hc
      rw [hc]
      simp
  · intro t' ht
    simp only [isDeliveryDue]
    rw [ht]

/-- Witness for C1 (the P2 scenario): `deliveryDays = {wed}`,
`deliveryTime = "14:45"`, timezone UTC; with the resolver reporting
Wednesday 14h the profile matches, with 15h or Tuesday it does not, and
`"14:45"` and `"14:00"` match identically. -/
theorem c1_schedule_match_witness :
    jsParseInt (firstSplitComp ':'
        (Settings.scheduleTime ⟨7, "k@kindle.com", "me@gmail.com", "pw",
          ["wed"], "14:45", some "UTC", none⟩)) = some 14
    ∧ isDeliveryDue
        (fun tz => if tz = "UTC" then some ("Wed", some "14") else none) 0
        ⟨7, "k@kindle.com", "me@gmail.com", "pw", ["wed"], "14:45", some "UTC", none⟩
        = true
    ∧ isDeliveryDue
        (fun tz => if tz = "UTC" then some ("Wed", some "15") else none) 0
        ⟨7, "k@kindle.com", "me@gmail.com", "pw", ["wed"], "14:45", some "UTC", none⟩
        = false
    ∧ isDeliveryDue
        (fun tz => if tz = "UTC" then some ("Tue", some "14") else none) 0
        ⟨7, "k@kindle.com", "me@gmail.com", "pw", ["wed"], "14:45", some "UTC", none⟩
        = false
    ∧ isDeliveryDue
        (fun tz => if tz = "UTC" then some ("Wed", some "14") else none) 0
        ⟨7, "k@kindle.com", "me@gmail.com", "pw", ["wed"], "14:00", some "UTC", none⟩
        = isDeliveryDue
        (fun tz => if tz = "UTC" then some ("Wed", some "14") else none) 0
        ⟨7, "k@kindle.com", "me@gmail.com", "pw", ["wed"], "14:45", some "UTC", none⟩ := by
  refine ⟨by decide, ?_, by decide, by decide, ?_⟩
  · exact (c1_schedule_match
      (fun tz => if tz = "UTC" then some ("Wed", some "14") else none) 0
      ⟨7, "k@kindle.com", "me@gmail.com", "pw", ["wed"], "14:45", some "UTC", none⟩
      14 (by decide)).1.mpr ⟨by decide, by decide⟩
  · exact (c1_schedule_match
      (fun tz => if tz = "UTC" then some ("Wed", some "14") else none) 0
      ⟨7, "k@kindle.com", "me@gmail.com", "pw", ["wed"], "14:45", some "UTC", none⟩
      14 (by decide)).2 "14:00" (by decide)

/-- `hasPre` detects exactly the initial segments. -/
theorem hasPre_iff (pat s : List Char) :
    hasPre pat s = true ↔ ∃ t, s = pat ++ t := by
  induction pat generalizing s with
  | nil => simp [hasPre]
  | cons p ps ih =>
    cases s with
    | nil =>
      simp [hasPre]
    | cons c cs =>
      simp only [hasPre, Bool.and_eq_true, beq_iff_eq]
      rw [ih]
      constructor
      · rintro ⟨rfl, t, rfl⟩
        exact ⟨t, rfl⟩
      · rintro ⟨t, ht⟩
        cases ht
        exact ⟨rfl, t, rfl⟩

/-- When the pattern occurs nowhere in the string, `replaceFirstL` is the
identity. -/
theorem replaceFirstL_no_occ (pat rep : List Char) (hp : pat ≠ []) :
    ∀ s : List Char, (∀ i, i ≤ s.length → hasPre pat (s.drop i) = false) →
      replaceFirstL pat rep s = s := by
  intro s
  induction s with
  | nil =>
    intro _
    simp [replaceFirstL, List.isEmpty_iff, hp]
  | cons c cs ih =>
    intro h
    have h0 : hasPre pat (c :: cs) = false := by
      have := h 0 (Nat.zero_le _)
      simpa using this
    rw [replaceFirstL, h0]
    simp only [Bool.false_eq_true, if_false]
    congr 1
    refine ih ?_
    intro i hi
    have := h (i + 1) (by simpa using Nat.succ_le_succ hi)
    simpa [List.drop_succ_cons] using this

/-- At the first occurrence of the pattern, `replaceFirstL` substitutes
exactly there and leaves the remainder untouched. -/
theorem replaceFirstL_first_occ (pat rep : List Char) (hp : pat ≠ []) :
    ∀ pre suf : List Char,
      (∀ i, i < pre.length → hasPre pat ((pre ++ pat ++ suf).drop i) = false) →
      replaceFirstL pat rep (pre ++ pat ++ suf) = pre ++ rep ++ suf := by
  intro pre
  induction pre with
  | nil =>
    intro suf _
    cases hpat : pat with
    | nil => exact absurd hpat hp
    | cons p ps =>
      subst hpat
      have hpre : hasPre (p :: ps) (p :: (ps ++ suf)) = true :=
        (hasPre_iff _ _).mpr ⟨suf, rfl⟩
      have hdrop : List.drop (p :: ps).length (p :: (ps ++ suf)) = suf :=
        List.drop_left (p :: ps) suf
      simp only [List.nil_append, List.cons_append, replaceFirstL, List.append_eq,
        hpre, if_true, hdrop]
  | cons c pre' ih =>
    intro suf h
    have h0 : hasPre pat ((c :: pre') ++ pat ++ suf) = false := by
      have := h 0 (by simp)
      simpa using this
    have hstep : (c :: pre') ++ pat ++ suf = c :: (pre' ++ pat ++ suf) := rfl
    rw [hstep] at h0 ⊢
    rw [replaceFirstL, h0]
    simp only [Bool.false_eq_true, if_false]
    have hrec := ih suf (fun i hi => by
      have := h (i + 1) (by simpa using Nat.succ_lt_succ hi)
      simpa [hstep, List.drop_succ_cons] using this)
    rw [hrec]
    rfl

/-- C10: the URL-host helper is total (a plain function of its inputs):
when the URL parser rejects the input, the input string is returned
unchanged; when it yields a hostname, the first occurrence of `"www."` —
leading or not — is removed, and a hostname without `"www."` passes
through unchanged. -/
theorem c10_extract_domain (parseHost : String → Option String) (url : String) :
    (parseHost url = none → extractDomain parseHost url = url)
    ∧ ∀ host, parseHost url = some host →
        ((∀ i, i ≤ host.data.length →
            hasPre "www.".data (host.data.drop i) = false) →
          extractDomain parseHost url = host)
        ∧ (∀ pre suf, host.data = pre ++ "www.".data ++ suf →
            (∀ i, i < pre.length →
              hasPre "www.".data (host.data.drop i) = false) →
            (extractDomain parseHost url).data = pre ++ suf) := by
  constructor
  · intro hn
    simp [extractDomain, hn]
  · intro host hs
    constructor
    · intro hno
      simp only [extractDomain, hs, jsReplaceFirst]
      have := replaceFirstL_no_occ "www.".data "".data (by decide) host.data hno
      rw [this]
    · intro pre suf hsplit hfirst
      simp only [extractDomain, hs, jsReplaceFirst]
      rw [hsplit]
      have := replaceFirstL_first_occ "www.".data "".data (by decide) pre suf
        (fun i hi => by rw [← hsplit]; exact hfirst i hi)
      rw [this]
      simp

/-- Witness for C10: a parse failure returns the raw input; a hostname
without `"www."` is unchanged; a non-leading `"www."` is removed. -/
theorem c10_extract_domain_witness :
    extractDomain (fun _ => none) "not a url" = "not a url"
    ∧ extractDomain (fun _ => some "example.org") "https://example.org/p"
        = "example.org"
    ∧ (extractDomain (fun _ => some "blog.www.site.org") "https://blog.www.site.org/p").data
        = "blog.".data ++ "site.org".data := by
  refine ⟨(c10_extract_domain (fun _ => none) "not a url").1 rfl, ?_, ?_⟩
  · exact ((c10_extract_domain (fun _ => some "example.org")
      "https://example.org/p").2 "example.org" rfl).1 (by decide)
  · exact ((c10_extract_domain (fun _ => some "blog.www.site.org")
      "https://blog.www.site.org/p").2 "blog.www.site.org" rfl).2
      "blog.".data "site.org".data (by decide) (by decide)

/-- The indexed chapter map preserves length. -/
theorem chaptersAux_length (ps : String → Option String) :
    ∀ (l : List Article) (i : Nat), (chaptersAux ps i l).length = l.length := by
  intro l
  induction l with
  | nil => intro i; rfl
  | cons a rest ih =>
    intro i
    simp [chaptersAux, ih]

/-- The chapter at position `j` of the indexed map is built from the
article at position `j`, with the offset index. -/
theorem chaptersAux_get? (ps : String → Option String) :
    ∀ (l : List Article) (i j : Nat),
      (chaptersAux ps i l).get? j = (l.get? j).map (fun a => chapterOf ps a (i + j)) := by
  intro l
  induction l with
  | nil => intro i j; cases j <;> rfl
  | cons a rest ih =>
    intro i j
    cases j with
    | zero => rfl
    | succ j' =>
      simp only [chaptersAux, List.get?_cons_succ]
      rw [ih (i + 1) j']
      have harith : i + 1 + j' = i + (j' + 1) := by omega
      rw [harith]

/-- A pair-join where the second component is falsy yields the first. -/
theorem jsJoinTruthy_pair_right_empty (sep x : String) :
    jsJoinTruthy sep [x, ""] = x := by
  by_cases hx : x = "" <;> simp [jsJoinTruthy, hx]

/-- A pair-join of two truthy components is the separator-joined
concatenation. -/
theorem jsJoinTruthy_pair (sep x y : String) (hx : x ≠ "") (hy : y ≠ "") :
    jsJoinTruthy sep [x, y] = x ++ sep ++ y := by
  simp [jsJoinTruthy, hx, hy]

/-- The rendered read time is never the empty string. -/
theorem toString_min_ne (n : Nat) : toString n ++ " min" ≠ "" := by
  intro h
  have hd := congrArg String.data h
  rw [String.data_append] at hd
  rcases List.append_eq_nil.mp hd with ⟨_, h2⟩
  have : " min".data ≠ [] := by decide
  exact this h2

/-- C9 as amended: the built chapter list has exactly one chapter per
sendable article in the same order (the chapter at index `j` is built
from the article at index `j`), and a chapter's display title is the
article's title when present and non-empty, otherwise the URL host with
the *first* occurrence of `"www."` removed (as computed by
`extractDomain`), with `" · N min"` appended exactly when the article
carries a present *and nonzero* read time.  (The original claim's
"leading `www.` stripped" and "appended when present" wordings fail on
the code; see the counterexample.) -/
theorem c9_chapters (ps : String → Option String) (l : List Article) :
    (chaptersOf ps l).length = l.length
    ∧ (∀ j, (chaptersOf ps l).get? j
        = (l.get? j).map (fun a => chapterOf ps a j))
    ∧ (∀ (a : Article) (i : Nat) (t : String), a.title = some t → t ≠ "" →
        (chapterOf ps a i).title = t ++ rtSuffix a)
    ∧ (∀ (a : Article) (i : Nat), (a.title = none ∨ a.title = some "") →
        extractDomain ps a.url ≠ "" →
        (chapterOf ps a i).title = extractDomain ps a.url ++ rtSuffix a) := by
  have htitle : ∀ (a : Article) (base : String), base ≠ "" →
      jsJoinTruthy " · "
          [base, match a.readTimeMinutes with
                 | some n => if n = 0 then "" else toString n ++ " min"
                 | none => ""]
        = base ++ rtSuffix a := by
    intro a base hb
    cases hrt : a.readTimeMinutes with
    | none =>
      simp only [rtSuffix, hrt]
      rw [jsJoinTruthy_pair_right_empty]
      exact String.ext (by simp [String.data_append])
    | some n =>
      by_cases hn : n = 0
      · simp only [rtSuffix, hrt, hn, if_true]
        rw [jsJoinTruthy_pair_right_empty]
        exact String.ext (by simp [String.data_append])
      · simp only [rtSuffix, hrt, if_neg hn]
        rw [jsJoinTruthy_pair _ _ _ hb (toString_min_ne n)]
        exact String.ext (by simp [String.data_append])
  refine ⟨chaptersAux_length ps l 0, ?_, ?_, ?_⟩
  · intro j
    have := chaptersAux_get? ps l 0 j
    simpa using this
  · intro a i t ht hne
    simp only [chapterOf, jsOrStr, ht, if_neg hne]
    exact htitle a t hne
  · intro a i hnone hdom
    cases hnone with
    | inl h => simp only [chapterOf, jsOrStr, h]; exact htitle a _ hdom
    | inr h => simp only [chapterOf, jsOrStr, h, if_pos rfl]; exact htitle a _ hdom

/-- Counterexample for C9 as stated: the code's fallback title strips the
*first* occurrence of `"www."`, not only a leading one — an untitled
article whose URL host is `blog.www.site.org` (no leading `"www."`) is
titled `blog.site.org`, while the claim's words leave the host unchanged;
and a title suffix is appended only for a *nonzero* read time — an
article with `readTimeMinutes = some 0` (present) gets no `" · 0 min"`
suffix, while the claim's words append one. -/
theorem c9_counterexample :
    (chapterOf (fun _ => some "blog.www.site.org")
        ⟨30, 1, "https://blog.www.site.org/p", none, none, some "<p>b</p>",
          none, ArticleStatus.queued, 0, none⟩ 0).title = "blog.site.org"
    ∧ claimChapterTitle "blog.www.site.org"
        ⟨30, 1, "https://blog.www.site.org/p", none, none, some "<p>b</p>",
          none, ArticleStatus.queued, 0, none⟩ = "blog.www.site.org"
    ∧ (chapterOf (fun _ => some "blog.www.site.org")
        ⟨30, 1, "https://blog.www.site.org/p", none, none, some "<p>b</p>",
          none, ArticleStatus.queued, 0, none⟩ 0).title
      ≠ claimChapterTitle "blog.www.site.org"
        ⟨30, 1, "https://blog.www.site.org/p", none, none, some "<p>b</p>",
          none, ArticleStatus.queued, 0, none⟩
    ∧ (chapterOf (fun _ => some "site.org")
        ⟨31, 1, "https://site.org/q", some "Essay", none, some "<p>c</p>",
          some 0, ArticleStatus.queued, 0, none⟩ 0).title = "Essay"
    ∧ claimChapterTitle "site.org"
        ⟨31, 1, "https://site.org/q", some "Essay", none, some "<p>c</p>",
          some 0, ArticleStatus.queued, 0, none⟩ = "Essay · 0 min"
    ∧ (chapterOf (fun _ => some "site.org")
        ⟨31, 1, "https://site.org/q", some "Essay", none, some "<p>c</p>",
          some 0, ArticleStatus.queued, 0, none⟩ 0).title
      ≠ claimChapterTitle "site.org"
        ⟨31, 1, "https://site.org/q", some "Essay", none, some "<p>c</p>",
          some 0, ArticleStatus.queued, 0, none⟩ := by
  refine ⟨by decide, by decide, by decide, by decide, by decide, by decide⟩

/-- Witness for C9: a titled article with a 7-minute read time gets
`"My Title · 7 min"`; an untitled article titled by its host (with
leading `"www."` stripped) gets `"example.com · 7 min"`. -/
theorem c9_chapters_witness :
    (chapterOf (fun _ => some "www.example.com")
        ⟨9, 1, "https://www.example.com/x", some "My Title", none, some "<p>hi</p>",
          some 7, ArticleStatus.queued, 5, none⟩ 0).title = "My Title · 7 min"
    ∧ (chapterOf (fun _ => some "www.example.com")
        ⟨9, 1, "https://www.example.com/x", none, none, some "<p>hi</p>",
          some 7, ArticleStatus.queued, 5, none⟩ 1).title = "example.com · 7 min" := by
  constructor
  · exact ((c9_chapters (fun _ => some "www.example.com") []).2.2.1
      ⟨9, 1, "https://www.example.com/x", some "My Title", none, some "<p>hi</p>",
        some 7, ArticleStatus.queued, 5, none⟩ 0 "My Title" rfl (by decide)).trans
      (by decide)
  · exact ((c9_chapters (fun _ => some "www.example.com") []).2.2.2
      ⟨9, 1, "https://www.example.com/x", none, none, some "<p>hi</p>",
        some 7, ArticleStatus.queued, 5, none⟩ 1 (Or.inl rfl) (by decide)).trans
      (by decide)

/-! ## Issue-number invariant lemmas -/

/-- `successIssues` of the empty history is empty. -/
theorem successIssues_nil (u : Nat) : successIssues [] u = [] := rfl

/-- `successIssues` distributes over history append. -/
theorem successIssues_append (h h' : List SendRecord) (u : Nat) :
    successIssues (h ++ h') u = successIssues h u ++ successIssues h' u :=
  List.filterMap_append h h' _

/-- Failed records contribute no success issues. -/
theorem successIssues_failed (u uid cnt : Nat) (msg : Option String)
    (ino : Option Nat) (hino : ino = none) :
    successIssues [{ userId := uid, articleCount := cnt
                     status := SendStatus.failed, issueNumber := ino
                     errorMessage := msg }] u = [] := by
  subst hino
  simp [successIssues]

/-- One unit step preserves strict monotonicity of every user's success
issue numbers (in insertion order). -/
theorem processUser_issues_pairwise (env : UnitEnv) (s : Settings)
    (st : DbState) (u : Nat)
    (hpw : List.Pairwise (· < ·) (successIssues st.history u)) :
    List.Pairwise (· < ·) (successIssues (processUser env s st).history u) := by
  rw [processUser_eq]
  show List.Pairwise (· < ·) (successIssues (st.history ++ _) u)
  rw [successIssues_append]
  rcases unitEffects_recs_cases env s (queuedArticlesFor st s.userId)
      (nextIssueNumber st.history s.userId) with hc | ⟨cnt, msg, hc⟩ | hc <;> rw [hc]
  · simpa [successIssues_nil] using hpw
  · rw [successIssues_failed u s.userId cnt (some msg) none rfl]
    simpa using hpw
  · by_cases hu : s.userId = u
    · subst hu
      have hsi : successIssues
          [{ userId := s.userId, articleCount := (sendableOf (queuedArticlesFor st s.userId)).length
             status := SendStatus.success
             issueNumber := some (nextIssueNumber st.history s.userId)
             errorMessage := none }] s.userId
          = [nextIssueNumber st.history s.userId] := by
        simp [successIssues]
      rw [hsi]
      rw [List.pairwise_append]
      refine ⟨hpw, List.pairwise_singleton _ _, ?_⟩
      intro a ha b hb
      rcases List.mem_singleton.mp hb with rfl
      have := le_listMax _ a ha
      unfold nextIssueNumber
      omega
    · have hsi : successIssues
          [{ userId := s.userId, articleCount := (sendableOf (queuedArticlesFor st s.userId)).length
             status := SendStatus.success
             issueNumber := some (nextIssueNumber st.history s.userId)
             errorMessage := none }] u = [] := by
        simp [successIssues, hu]
      rw [hsi]
      simpa using hpw

/-- A whole batch preserves strict monotonicity of every user's success
issue numbers. -/
theorem runBatch_issues_pairwise (envs : Nat → UnitEnv) (users : List Settings)
    (st : DbState) (u : Nat)
    (hpw : List.Pairwise (· < ·) (successIssues st.history u)) :
    List.Pairwise (· < ·) (successIssues (runBatch envs users st).history u) := by
  induction users generalizing st with
  | nil => exact hpw
  | cons s rest ih =>
    exact ih (processUser (envs s.userId) s st)
      (processUser_issues_pairwise (envs s.userId) s st u hpw)

/-- Under an EPUB-generation failure, the unit inserts no success
record. -/
theorem unitEffects_recs_epub_err (env : UnitEnv) (s : Settings)
    (queued : List Article) (issue : Nat) (msg : String)
    (h : env.epubResult = Except.error msg) :
    (unitEffects env s queued issue).recs = []
    ∨ ∃ cnt msg2, (unitEffects env s queued issue).recs
        = [{ userId := s.userId, articleCount := cnt, status := SendStatus.failed
             issueNumber := none, errorMessage := some msg2 }] := by
  unfold unitEffects
  simp only [h]
  repeat' split
  all_goals simp

/-- Under an email failure (after EPUB success), the unit inserts no
success record. -/
theorem unitEffects_recs_email_err (env : UnitEnv) (s : Settings)
    (queued : List Article) (issue : Nat) (msg : String)
    (hok : env.epubResult = Except.ok ()) (h : env.emailSendResult = Except.error msg) :
    (unitEffects env s queued issue).recs = []
    ∨ ∃ cnt msg2, (unitEffects env s queued issue).recs
        = [{ userId := s.userId, articleCount := cnt, status := SendStatus.failed
             issueNumber := none, errorMessage := some msg2 }] := by
  unfold unitEffects
  simp only [hok, h]
  repeat' split
  all_goals simp

/-- A history extension that carries no success record leaves every
user's next issue number unchanged. -/
theorem nextIssueNumber_append_failed (h : List SendRecord) (u : Nat)
    (recs : List SendRecord)
    (hr : recs = [] ∨ ∃ uid cnt msg2, recs
        = [{ userId := uid, articleCount := cnt, status := SendStatus.failed
             issueNumber := none, errorMessage := some msg2 }]) :
    nextIssueNumber (h ++ recs) u = nextIssueNumber h u := by
  unfold nextIssueNumber
  rw [successIssues_append]
  rcases hr with rfl | ⟨uid, cnt, msg2, rfl⟩
  · simp [successIssues_nil]
  · rw [successIssues_failed u uid cnt (some msg2) none rfl]
    simp

/-- C4: success issue numbers of every user remain strictly increasing
(never reused) across any single delivery attempt and any batch of
attempts, and a failed attempt — EPUB generation failure or email
failure — leaves the user's next issue number unchanged, so the number
the failed attempt would have used goes to the next success. -/
theorem c4_issue_monotonic (envs : Nat → UnitEnv) (users : List Settings)
    (env : UnitEnv) (s : Settings) (st : DbState) (u : Nat) :
    (List.Pairwise (· < ·) (successIssues st.history u) →
      List.Pairwise (· < ·) (successIssues (processUser env s st).history u))
    ∧ (List.Pairwise (· < ·) (successIssues st.history u) →
      List.Pairwise (· < ·) (successIssues (runBatch envs users st).history u))
    ∧ (∀ msg, env.epubResult = Except.error msg →
        nextIssueNumber (processUser env s st).history u
          = nextIssueNumber st.history u)
    ∧ (∀ msg, env.epubResult = Except.ok () →
        env.emailSendResult = Except.error msg →
        nextIssueNumber (processUser env s st).history u
          = nextIssueNumber st.history u) := by
  refine ⟨processUser_issues_pairwise env s st u,
    runBatch_issues_pairwise envs users st u, ?_, ?_⟩
  · intro msg hmsg
    rw [processUser_eq]
    show nextIssueNumber (st.history ++ _) u = _
    refine nextIssueNumber_append_failed _ _ _ ?_
    rcases unitEffects_recs_epub_err env s (queuedArticlesFor st s.userId)
        (nextIssueNumber st.history s.userId) msg hmsg with hc | ⟨cnt, msg2, hc⟩
    · exact Or.inl hc
    · exact Or.inr ⟨s.userId, cnt, msg2, hc⟩
  · intro msg hok hmsg
    rw [processUser_eq]
    show nextIssueNumber (st.history ++ _) u = _
    refine nextIssueNumber_append_failed _ _ _ ?_
    rcases unitEffects_recs_email_err env s (queuedArticlesFor st s.userId)
        (nextIssueNumber st.history s.userId) msg hok hmsg with hc | ⟨cnt, msg2, hc⟩
    · exact Or.inl hc
    · exact Or.inr ⟨s.userId, cnt, msg2, hc⟩

/-- Witness for C4 (the P4 scenario): with prior success issues
`[1, 2, 3]`, the next number is 4; a failed EPUB attempt leaves it at 4;
a successful send then uses 4 and the next number becomes 5, with the
monotonicity invariant preserved. -/
theorem c4_issue_monotonic_witness :
    List.Pairwise (· < ·) (successIssues
      [{ userId := 1, articleCount := 1, status := SendStatus.success
         issueNumber := some 1, errorMessage := none },
       { userId := 1, articleCount := 1, status := SendStatus.success
         issueNumber := some 2, errorMessage := none },
       { userId := 1, articleCount := 1, status := SendStatus.success
         issueNumber := some 3, errorMessage := none }] 1)
    ∧ nextIssueNumber
      [{ userId := 1, articleCount := 1, status := SendStatus.success
         issueNumber := some 1, errorMessage := none },
       { userId := 1, articleCount := 1, status := SendStatus.success
         issueNumber := some 2, errorMessage := none },
       { userId := 1, articleCount := 1, status := SendStatus.success
         issueNumber := some 3, errorMessage := none }] 1 = 4
    ∧ nextIssueNumber (processUser
        ⟨false, false, Except.error "encode failed", false, Except.ok (), false, false, false, 9⟩
        ⟨1, "k@kindle.com", "me@gmail.com", "pw", ["mon"], "09:00", none, none⟩
        ⟨[⟨21, 1, "https://a.example", none, none, some "hello", none,
            ArticleStatus.queued, 0, none⟩],
         [{ userId := 1, articleCount := 1, status := SendStatus.success
            issueNumber := some 1, errorMessage := none },
          { userId := 1, articleCount := 1, status := SendStatus.success
            issueNumber := some 2, errorMessage := none },
          { userId := 1, articleCount := 1, status := SendStatus.success
            issueNumber := some 3, errorMessage := none }], [], 0⟩).history 1
      = nextIssueNumber
      [{ userId := 1, articleCount := 1, status := SendStatus.success
         issueNumber := some 1, errorMessage := none },
       { userId := 1, articleCount := 1, status := SendStatus.success
         issueNumber := some 2, errorMessage := none },
       { userId := 1, articleCount := 1, status := SendStatus.success
         issueNumber := some 3, errorMessage := none }] 1
    ∧ nextIssueNumber (processUser
        ⟨false, false, Except.ok (), false, Except.ok (), false, false, false, 9⟩
        ⟨1, "k@kindle.com", "me@gmail.com", "pw", ["mon"], "09:00", none, none⟩
        ⟨[⟨21, 1, "https://a.example", none, none, some "hello", none,
            ArticleStatus.queued, 0, none⟩],
         [{ userId := 1, articleCount := 1, status := SendStatus.success
            issueNumber := some 1, errorMessage := none },
          { userId := 1, articleCount := 1, status := SendStatus.success
            issueNumber := some 2, errorMessage := none },
          { userId := 1, articleCount := 1, status := SendStatus.success
            issueNumber := some 3, errorMessage := none }], [], 0⟩).history 1 = 5
    ∧ List.Pairwise (· < ·) (successIssues (processUser
        ⟨false, false, Except.ok (), false, Except.ok (), false, false, false, 9⟩
        ⟨1, "k@kindle.com", "me@gmail.com", "pw", ["mon"], "09:00", none, none⟩
        ⟨[⟨21, 1, "https://a.example", none, none, some "hello", none,
            ArticleStatus.queued, 0, none⟩],
         [{ userId := 1, articleCount := 1, status := SendStatus.success
            issueNumber := some 1, errorMessage := none },
          { userId := 1, articleCount := 1, status := SendStatus.success
            issueNumber := some 2, errorMessage := none },
          { userId := 1, articleCount := 1, status := SendStatus.success
            issueNumber := some 3, errorMessage := none }], [], 0⟩).history 1) := by
  refine ⟨by decide, by decide, ?_, by decide, ?_⟩
  · exact (c4_issue_monotonic (fun _ => ⟨false, false, Except.ok (), false,
      Except.ok (), false, false, false, 9⟩) []
      ⟨false, false, Except.error "encode failed", false, Except.ok (), false, false, false, 9⟩
      ⟨1, "k@kindle.com", "me@gmail.com", "pw", ["mon"], "09:00", none, none⟩
      ⟨[⟨21, 1, "https://a.example", none, none, some "hello", none,
          ArticleStatus.queued, 0, none⟩],
       [{ userId := 1, articleCount := 1, status := SendStatus.success
          issueNumber := some 1, errorMessage := none },
        { userId := 1, articleCount := 1, status := SendStatus.success
          issueNumber := some 2, errorMessage := none },
        { userId := 1, articleCount := 1, status := SendStatus.success
          issueNumber := some 3, errorMessage := none }], [], 0⟩ 1).2.2.1
      "encode failed" rfl
  · exact (c4_issue_monotonic (fun _ => ⟨false, false, Except.ok (), false,
      Except.ok (), false, false, false, 9⟩) []
      ⟨false, false, Except.ok (), false, Except.ok (), false, false, false, 9⟩
      ⟨1, "k@kindle.com", "me@gmail.com", "pw", ["mon"], "09:00", none, none⟩
      ⟨[⟨21, 1, "https://a.example", none, none, some "hello", none,
          ArticleStatus.queued, 0, none⟩],
       [{ userId := 1, articleCount := 1, status := SendStatus.success
          issueNumber := some 1, errorMessage := none },
        { userId := 1, articleCount := 1, status := SendStatus.success
          issueNumber := some 2, errorMessage := none },
        { userId := 1, articleCount := 1, status := SendStatus.success
          issueNumber := some 3, errorMessage := none }], [], 0⟩ 1).1 (by decide)

/-! ## C6: failure recording -/

/-- Counterexample for C6 as stated: an unexpected error thrown mid-unit
after article selection (here the issue-number query await rejecting) is
only caught and logged — the unit inserts **no** failed history record,
leaving the store unchanged, although one sendable article had been
selected and the gate had passed. -/
theorem c6_counterexample :
    (sendableOf (queuedArticlesFor
      ⟨[⟨10, 1, "https://a.example", none, none, some "hello", none,
          ArticleStatus.queued, 0, none⟩], [], [], 0⟩ 1)).length = 1
    ∧ effectiveMin none = 1
    ∧ processUser
        ⟨false, true, Except.ok (), false, Except.ok (), false, false, false, 7⟩
        ⟨1, "k@kindle.com", "me@gmail.com", "pw", ["mon"], "09:00", none, none⟩
        ⟨[⟨10, 1, "https://a.example", none, none, some "hello", none,
            ArticleStatus.queued, 0, none⟩], [], [], 0⟩
      = ⟨[⟨10, 1, "https://a.example", none, none, some "hello", none,
            ArticleStatus.queued, 0, none⟩], [], [], 0⟩
    ∧ (processUser
        ⟨false, true, Except.ok (), false, Except.ok (), false, false, false, 7⟩
        ⟨1, "k@kindle.com", "me@gmail.com", "pw", ["mon"], "09:00", none, none⟩
        ⟨[⟨10, 1, "https://a.example", none, none, some "hello", none,
            ArticleStatus.queued, 0, none⟩], [], [], 0⟩).history.length = 0 := by
  refine ⟨by decide, by decide, by decide, by decide⟩

/-- C6 as amended: for the two stage failures the unit actually records —
EPUB generation failure and email failure — exactly one failed history
record is inserted, with `articleCount` the sendable count and an
errorMessage naming the stage, and the articles (hence every selected
article's status and sentAt) are unchanged; other unexpected unit errors
are only caught and logged, inserting nothing (see the counterexample). -/
theorem c6_stage_failure_record (env : UnitEnv) (s : Settings) (st : DbState)
    (hq : env.articlesQueryError = false)
    (hne : ¬ (queuedArticlesFor st s.userId).isEmpty = true)
    (hsend : ¬ (sendableOf (queuedArticlesFor st s.userId)).isEmpty = true)
    (hmin : ¬ (((sendableOf (queuedArticlesFor st s.userId)).length : Int)
        < jsOrInt s.minArticleCount 1))
    (hiq : env.issueQueryThrows = false) :
    (∀ msg, env.epubResult = Except.error msg → env.epubFailInsertThrows = false →
      processUser env s st
        = { st with
            epubCalls := st.epubCalls + 1
            history := st.history ++
              [{ userId := s.userId
                 articleCount := (sendableOf (queuedArticlesFor st s.userId)).length
                 status := SendStatus.failed, issueNumber := none
                 errorMessage := some ("Scheduled send — EPUB generation failed: " ++ msg) }] })
    ∧ (∀ msg, env.epubResult = Except.ok () → env.emailSendResult = Except.error msg →
        env.emailFailInsertThrows = false →
      processUser env s st
        = { st with
            epubCalls := st.epubCalls + 1
            mails := st.mails ++ [mailOf s]
            history := st.history ++
              [{ userId := s.userId
                 articleCount := (sendableOf (queuedArticlesFor st s.userId)).length
                 status := SendStatus.failed, issueNumber := none
                 errorMessage := some ("Scheduled send — Email failed: " ++ msg) }] }) := by
  constructor
  · intro msg hmsg hthrow
    rw [processUser_eq]
    simp only [unitEffects, hq, hne, hsend, hmin, hiq, hmsg, hthrow]
    simp [applyEffects]
  · intro msg hok hmsg hthrow
    rw [processUser_eq]
    simp only [unitEffects, hq, hne, hsend, hmin, hiq, hok, hmsg, hthrow]
    simp [applyEffects]

/-- Witness for the amended C6: a concrete EPUB failure and a concrete
email failure each insert exactly their one failed record. -/
theorem c6_stage_failure_record_witness :
    processUser
      ⟨false, false, Except.error "bad encode", false, Except.ok (), false, false, false, 7⟩
      ⟨1, "k@kindle.com", "me@gmail.com", "pw", ["mon"], "09:00", none, none⟩
      ⟨[⟨10, 1, "https://a.example", none, none, some "hello", none,
          ArticleStatus.queued, 0, none⟩], [], [], 0⟩
      = ⟨[⟨10, 1, "https://a.example", none, none, some "hello", none,
            ArticleStatus.queued, 0, none⟩],
         [{ userId := 1, articleCount := 1, status := SendStatus.failed
            issueNumber := none
            errorMessage := some "Scheduled send — EPUB generation failed: bad encode" }],
         [], 1⟩
    ∧ processUser
      ⟨false, false, Except.ok (), false, Except.error "smtp refused", false, false, false, 7⟩
      ⟨1, "k@kindle.com", "me@gmail.com", "pw", ["mon"], "09:00", none, none⟩
      ⟨[⟨10, 1, "https://a.example", none, none, some "hello", none,
          ArticleStatus.queued, 0, none⟩], [], [], 0⟩
      = ⟨[⟨10, 1, "https://a.example", none, none, some "hello", none,
            ArticleStatus.queued, 0, none⟩],
         [{ userId := 1, articleCount := 1, status := SendStatus.failed
            issueNumber := none
            errorMessage := some "Scheduled send — Email failed: smtp refused" }],
         [⟨"me@gmail.com", "k@kindle.com", "Articles", "<div></div>"⟩], 1⟩ := by
  constructor
  · exact ((c6_stage_failure_record
      ⟨false, false, Except.error "bad encode", false, Except.ok (), false, false, false, 7⟩
      ⟨1, "k@kindle.com", "me@gmail.com", "pw", ["mon"], "09:00", none, none⟩
      ⟨[⟨10, 1, "https://a.example", none, none, some "hello", none,
          ArticleStatus.queued, 0, none⟩], [], [], 0⟩
      rfl (by decide) (by decide) (by decide) rfl).1 "bad encode" rfl rfl).trans (by decide)
  · exact ((c6_stage_failure_record
      ⟨false, false, Except.ok (), false, Except.error "smtp refused", false, false, false, 7⟩
      ⟨1, "k@kindle.com", "me@gmail.com", "pw", ["mon"], "09:00", none, none⟩
      ⟨[⟨10, 1, "https://a.example", none, none, some "hello", none,
          ArticleStatus.queued, 0, none⟩], [], [], 0⟩
      rfl (by decide) (by decide) (by decide) rfl).2 "smtp refused" rfl rfl rfl).trans
      (by decide)

/-! ## Isolation lemmas -/

/-- Membership in a stable insert. -/
theorem mem_insertByCreated (a x : Article) (l : List Article) :
    x ∈ insertByCreated a l ↔ x = a ∨ x ∈ l := by
  induction l with
  | nil => simp [insertByCreated]
  | cons b rest ih =>
    unfold insertByCreated
    by_cases h : a.createdAt ≤ b.createdAt
    · simp [h]
    · simp [h, ih]
      tauto

/-- The sort by `createdAt` preserves membership. -/
theorem mem_sortByCreated (x : Article) (l : List Article) :
    x ∈ sortByCreated l ↔ x ∈ l := by
  induction l with
  | nil => simp [sortByCreated]
  | cons a rest ih =>
    simp [sortByCreated, mem_insertByCreated, ih]

/-- A member of the queued-articles query result is a store row of the
queried user. -/
theorem mem_queuedArticles (st : DbState) (u : Nat) (a : Article)
    (h : a ∈ queuedArticlesFor st u) : a ∈ st.articles ∧ a.userId = u := by
  unfold queuedArticlesFor at h
  rw [mem_sortByCreated] at h
  have h1 := List.mem_of_mem_filter h
  have h2 := List.of_mem_filter h
  simp only [Bool.and_eq_true, beq_iff_eq] at h2
  exact ⟨h1, h2.1⟩

/-- A unit never changes the id column of the article store. -/
theorem processUser_ids (env : UnitEnv) (s : Settings) (st : DbState) :
    (processUser env s st).articles.map (fun a => a.id)
      = st.articles.map (fun a => a.id) := by
  rw [processUser_eq]
  simp only [applyEffects]
  rw [List.map_map]
  refine List.map_congr_left ?_
  intro a _
  by_cases hmk : a.id ∈ (unitEffects env s (queuedArticlesFor st s.userId)
      (nextIssueNumber st.history s.userId)).marks
  · simp [hmk]
  · simp [hmk]

/-- The history slice of any other user is untouched by a unit. -/
theorem processUser_historyFor_frame (env : UnitEnv) (s : Settings)
    (st : DbState) (u : Nat) (hu : u ≠ s.userId) :
    historyFor (processUser env s st) u = historyFor st u := by
  rw [processUser_eq]
  show (st.history ++ _).filter _ = _
  rw [List.filter_append]
  have : ((unitEffects env s (queuedArticlesFor st s.userId)
      (nextIssueNumber st.history s.userId)).recs).filter
        (fun r => r.userId == u) = [] := by
    rw [List.filter_eq_nil_iff]
    intro r hr
    have := unitEffects_recs_userId env s _ _ r hr
    simp [this, Ne.symm hu]
  rw [this, List.append_nil]
  rfl

/-- The unit's own history slice grows by exactly the characterized
records. -/
theorem processUser_historyFor_self (env : UnitEnv) (s : Settings)
    (st : DbState) :
    historyFor (processUser env s st) s.userId
      = historyFor st s.userId
        ++ (unitEffects env s (queuedArticlesFor st s.userId)
            (nextIssueNumber st.history s.userId)).recs := by
  rw [processUser_eq]
  show (st.history ++ _).filter _ = _
  rw [List.filter_append]
  congr 1
  rw [List.filter_eq_self]
  intro r hr
  have := unitEffects_recs_userId env s _ _ r hr
  simp [this]

/-- Filtering a user's queued rows commutes with marking another user's
rows sent. -/
theorem filter_user_map_upd (l : List Article) (marks : List Nat) (now : Nat)
    (u : Nat) (h : ∀ a ∈ l, a.id ∈ marks → a.userId ≠ u) :
    (l.map (fun a => if a.id ∈ marks then
        { a with status := ArticleStatus.sent, sentAt := some now } else a)).filter
        (fun a => a.userId == u && a.status == ArticleStatus.queued)
      = l.filter (fun a => a.userId == u && a.status == ArticleStatus.queued) := by
  induction l with
  | nil => rfl
  | cons a rest ih =>
    have hrest := ih (fun b hb => h b (List.mem_cons_of_mem a hb))
    by_cases hmk : a.id ∈ marks
    · have hne : a.userId ≠ u := h a (List.mem_cons_self a rest) hmk
      simp only [List.map_cons, if_pos hmk, List.filter_cons]
      simp [hne, hrest]
    · simp only [List.map_cons, if_neg hmk, List.filter_cons]
      simp [hrest]

/-- The queued-articles query of any other user is untouched by a unit
(given globally unique article ids). -/
theorem processUser_queued_frame (env : UnitEnv) (s : Settings)
    (st : DbState) (u : Nat) (hu : u ≠ s.userId)
    (hIds : (st.articles.map (fun a => a.id)).Nodup) :
    queuedArticlesFor (processUser env s st) u = queuedArticlesFor st u := by
  rw [processUser_eq]
  show sortByCreated (((st.articles.map _)).filter _) = _
  unfold queuedArticlesFor
  congr 1
  refine filter_user_map_upd _ _ _ _ ?_
  intro a ha hmk
  obtain ⟨b, hb, hbid⟩ := unitEffects_marks_mem env s _ _ a.id hmk
  have hbq := List.mem_of_mem_filter hb
  have hbst := mem_queuedArticles st s.userId b hbq
  intro hau
  have hab : a = b := by
    refine List.inj_on_of_nodup_map hIds ha hbst.1 ?_
    exact hbid.symm
  rw [hab, hbst.2] at hau
  exact hu hau.symm

/-- `successIssues` is determined by the user's history slice. -/
theorem successIssues_of_filter (g : List SendRecord) (u : Nat) :
    successIssues g u
      = (g.filter (fun r => r.userId == u)).filterMap
          (fun r => if r.status = SendStatus.success then r.issueNumber else none) := by
  induction g with
  | nil => rfl
  | cons r rest ih =>
    unfold successIssues at ih ⊢
    by_cases hr : r.userId = u
    · simp only [List.filterMap_cons, List.filter_cons, hr, beq_self_eq_true, if_true,
        eq_self_iff_true, true_and]
      rw [ih]
    · have hcond : ¬ (r.userId = u ∧ r.status = SendStatus.success) := fun hc => hr hc.1
      have hbeq : (r.userId == u) = false := by simp [hr]
      simp only [List.filterMap_cons, List.filter_cons, hbeq, if_neg hcond,
        Bool.false_eq_true, if_false]
      exact ih

/-- Equal history slices give equal next issue numbers. -/
theorem nextIssueNumber_congr (h h' : List SendRecord) (u : Nat)
    (he : h.filter (fun r => r.userId == u) = h'.filter (fun r => r.userId == u)) :
    nextIssueNumber h u = nextIssueNumber h' u := by
  unfold nextIssueNumber
  rw [successIssues_of_filter, successIssues_of_filter, he]

/-- A batch over users not including `u` leaves `u`'s history slice and
queued-article query untouched. -/
theorem runBatch_frame (envs : Nat → UnitEnv) (users : List Settings) :
    ∀ (st : DbState) (u : Nat), u ∉ users.map (fun s => s.userId) →
      (st.articles.map (fun a => a.id)).Nodup →
      historyFor (runBatch envs users st) u = historyFor st u
      ∧ queuedArticlesFor (runBatch envs users st) u = queuedArticlesFor st u := by
  induction users with
  | nil => intro st u _ _; exact ⟨rfl, rfl⟩
  | cons s rest ih =>
    intro st u hu hIds
    have hu' : ¬u = s.userId ∧ ∀ x ∈ rest, ¬x.userId = u := by simpa using hu
    have hu1 : u ≠ s.userId := hu'.1
    have hu2 : u ∉ rest.map (fun s => s.userId) := by simpa using hu'.2
    have hIds1 : ((processUser (envs s.userId) s st).articles.map (fun a => a.id)).Nodup := by
      rw [processUser_ids]; exact hIds
    have hbatch : runBatch envs (s :: rest) st
        = runBatch envs rest (processUser (envs s.userId) s st) := rfl
    rw [hbatch]
    obtain ⟨ih1, ih2⟩ := ih (processUser (envs s.userId) s st) u hu2 hIds1
    constructor
    · rw [ih1, processUser_historyFor_frame _ _ _ _ hu1]
    · rw [ih2, processUser_queued_frame _ _ _ _ hu1 hIds]

/-- Isolation: in a batch over users with distinct ids, every user's
history comes out exactly as if its unit alone had run from the tick's
initial state — whatever the other units' environments do. -/
theorem runBatch_isolation (envs : Nat → UnitEnv) (users : List Settings) :
    ∀ (st : DbState), (users.map (fun s => s.userId)).Nodup →
      (st.articles.map (fun a => a.id)).Nodup →
      ∀ s ∈ users,
        historyFor (runBatch envs users st) s.userId
          = historyFor (processUser (envs s.userId) s st) s.userId := by
  induction users with
  | nil =>
    intro st _ _ s hs
    exact absurd hs (List.not_mem_nil s)
  | cons s0 rest ih =>
    intro st hN hIds s hs
    have hN' : (∀ x ∈ rest, ¬ x.userId = s0.userId)
        ∧ (rest.map (fun s => s.userId)).Nodup := by simpa using hN
    have hIds1 : ((processUser (envs s0.userId) s0 st).articles.map (fun a => a.id)).Nodup := by
      rw [processUser_ids]; exact hIds
    have hbatch : runBatch envs (s0 :: rest) st
        = runBatch envs rest (processUser (envs s0.userId) s0 st) := rfl
    rcases List.mem_cons.mp hs with rfl | hs'
    · rw [hbatch]
      have hnotmem : s.userId ∉ rest.map (fun t => t.userId) := by
        simpa using hN'.1
      exact (runBatch_frame envs rest _ s.userId hnotmem hIds1).1
    · have hneq : s.userId ≠ s0.userId := hN'.1 s hs'
    -- the later unit sees its own rows as in the initial state
      rw [hbatch, ih _ hN'.2 hIds1 s hs']
      rw [processUser_historyFor_self, processUser_historyFor_self]
      have hf := processUser_historyFor_frame (envs s0.userId) s0 st s.userId hneq
      have hqf := processUser_queued_frame (envs s0.userId) s0 st s.userId hneq hIds
      have hni : nextIssueNumber (processUser (envs s0.userId) s0 st).history s.userId
          = nextIssueNumber st.history s.userId :=
        nextIssueNumber_congr _ _ _ hf
      rw [hf, hqf, hni]

/-- C5: whatever errors any units throw, a batch over matching users with
distinct ids (and globally unique article ids) still returns the
completion response, and every user's history comes out exactly as its
own unit alone would have produced from the tick's initial state — one
user's failure is invisible to and non-blocking for all others. -/
theorem c5_unit_isolation (he : HandlerEnv) (st : DbState)
    (hEnv : he.envVarsPresent = true)
    (hSet : he.settingsQueryError = false)
    (hMatch : matchingUsers he.intl he.nowMs he.allSettings ≠ [])
    (hNodup : ((matchingUsers he.intl he.nowMs he.allSettings).map
        (fun s => s.userId)).Nodup)
    (hIds : (st.articles.map (fun a => a.id)).Nodup) :
    (handler he st).2 = "Scheduled send complete"
    ∧ ∀ s ∈ matchingUsers he.intl he.nowMs he.allSettings,
        historyFor (handler he st).1 s.userId
          = historyFor (processUser (he.unitEnvs s.userId) s st) s.userId := by
  have hall : ¬ he.allSettings.isEmpty = true := by
    intro hempty
    apply hMatch
    have h0 : he.allSettings = [] := by simpa [List.isEmpty_iff] using hempty
    simp [matchingUsers, h0]
  have hm : ¬ (matchingUsers he.intl he.nowMs he.allSettings).isEmpty = true := by
    simpa [List.isEmpty_iff] using hMatch
  have hh : handler he st
      = (runBatch he.unitEnvs (matchingUsers he.intl he.nowMs he.allSettings) st,
         "Scheduled send complete") := by
    unfold handler
    simp [hEnv, hSet, hall, hm]
  rw [hh]
  exact ⟨rfl, fun s hs =>
    runBatch_isolation he.unitEnvs _ st hNodup hIds s hs⟩

/-- Witness for C5 (the P5 scenario): three matching users; user 2's
unit throws during artifact assembly (the EPUB error's failure-insert
also rejects, so nothing is recorded for it); users 1 and 3 both
complete with their own success records and the batch returns the
completion response. -/
theorem c5_unit_isolation_witness :
    (handler
      ⟨true, false,
       [⟨1, "k1@kindle.com", "m1@gmail.com", "pw", ["mon"], "09:00", none, none⟩,
        ⟨2, "k2@kindle.com", "m2@gmail.com", "pw", ["mon"], "09:00", none, none⟩,
        ⟨3, "k3@kindle.com", "m3@gmail.com", "pw", ["mon"], "09:00", none, none⟩],
       fun _ => some ("Mon", some "9"), 0,
       fun u => if u = 2 then
          ⟨false, false, Except.error "assembly crash", true, Except.ok (), false, false, false, 5⟩
        else ⟨false, false, Except.ok (), false, Except.ok (), false, false, false, 5⟩⟩
      ⟨[⟨101, 1, "https://a.example", none, none, some "x", none, ArticleStatus.queued, 0, none⟩,
        ⟨102, 2, "https://b.example", none, none, some "y", none, ArticleStatus.queued, 0, none⟩,
        ⟨103, 3, "https://c.example", none, none, some "z", none, ArticleStatus.queued, 0, none⟩],
       [], [], 0⟩).2 = "Scheduled send complete"
    ∧ historyFor (handler
      ⟨true, false,
       [⟨1, "k1@kindle.com", "m1@gmail.com", "pw", ["mon"], "09:00", none, none⟩,
        ⟨2, "k2@kindle.com", "m2@gmail.com", "pw", ["mon"], "09:00", none, none⟩,
        ⟨3, "k3@kindle.com", "m3@gmail.com", "pw", ["mon"], "09:00", none, none⟩],
       fun _ => some ("Mon", some "9"), 0,
       fun u => if u = 2 then
          ⟨false, false, Except.error "assembly crash", true, Except.ok (), false, false, false, 5⟩
        else ⟨false, false, Except.ok (), false, Except.ok (), false, false, false, 5⟩⟩
      ⟨[⟨101, 1, "https://a.example", none, none, some "x", none, ArticleStatus.queued, 0, none⟩,
        ⟨102, 2, "https://b.example", none, none, some "y", none, ArticleStatus.queued, 0, none⟩,
        ⟨103, 3, "https://c.example", none, none, some "z", none, ArticleStatus.queued, 0, none⟩],
       [], [], 0⟩).1 1
      = [{ userId := 1, articleCount := 1, status := SendStatus.success
           issueNumber := some 1, errorMessage := none }]
    ∧ historyFor (handler
      ⟨true, false,
       [⟨1, "k1@kindle.com", "m1@gmail.com", "pw", ["mon"], "09:00", none, none⟩,
        ⟨2, "k2@kindle.com", "m2@gmail.com", "pw", ["mon"], "09:00", none, none⟩,
        ⟨3, "k3@kindle.com", "m3@gmail.com", "pw", ["mon"], "09:00", none, none⟩],
       fun _ => some ("Mon", some "9"), 0,
       fun u => if u = 2 then
          ⟨false, false, Except.error "assembly crash", true, Except.ok (), false, false, false, 5⟩
        else ⟨false, false, Except.ok (), false, Except.ok (), false, false, false, 5⟩⟩
      ⟨[⟨101, 1, "https://a.example", none, none, some "x", none, ArticleStatus.queued, 0, none⟩,
        ⟨102, 2, "https://b.example", none, none, some "y", none, ArticleStatus.queued, 0, none⟩,
        ⟨103, 3, "https://c.example", none, none, some "z", none, ArticleStatus.queued, 0, none⟩],
       [], [], 0⟩).1 2 = []
    ∧ historyFor (handler
      ⟨true, false,
       [⟨1, "k1@kindle.com", "m1@gmail.com", "pw", ["mon"], "09:00", none, none⟩,
        ⟨2, "k2@kindle.com", "m2@gmail.com", "pw", ["mon"], "09:00", none, none⟩,
        ⟨3, "k3@kindle.com", "m3@gmail.com", "pw", ["mon"], "09:00", none, none⟩],
       fun _ => some ("Mon", some "9"), 0,
       fun u => if u = 2 then
          ⟨false, false, Except.error "assembly crash", true, Except.ok (), false, false, false, 5⟩
        else ⟨false, false, Except.ok (), false, Except.ok (), false, false, false, 5⟩⟩
      ⟨[⟨101, 1, "https://a.example", none, none, some "x", none, ArticleStatus.queued, 0, none⟩,
        ⟨102, 2, "https://b.example", none, none, some "y", none, ArticleStatus.queued, 0, none⟩,
        ⟨103, 3, "https://c.example", none, none, some "z", none, ArticleStatus.queued, 0, none⟩],
       [], [], 0⟩).1 3
      = [{ userId := 3, articleCount := 1, status := SendStatus.success
           issueNumber := some 1, errorMessage := none }]
    ∧ historyFor (handler
      ⟨true, false,
       [⟨1, "k1@kindle.com", "m1@gmail.com", "pw", ["mon"], "09:00", none, none⟩,
        ⟨2, "k2@kindle.com", "m2@gmail.com", "pw", ["mon"], "09:00", none, none⟩,
        ⟨3, "k3@kindle.com", "m3@gmail.com", "pw", ["mon"], "09:00", none, none⟩],
       fun _ => some ("Mon", some "9"), 0,
       fun u => if u = 2 then
          ⟨false, false, Except.error "assembly crash", true, Except.ok (), false, false, false, 5⟩
        else ⟨false, false, Except.ok (), false, Except.ok (), false, false, false, 5⟩⟩
      ⟨[⟨101, 1, "https://a.example", none, none, some "x", none, ArticleStatus.queued, 0, none⟩,
        ⟨102, 2, "https://b.example", none, none, some "y", none, ArticleStatus.queued, 0, none⟩,
        ⟨103, 3, "https://c.example", none, none, some "z", none, ArticleStatus.queued, 0, none⟩],
       [], [], 0⟩).1 3
      = historyFor (processUser
          ⟨false, false, Except.ok (), false, Except.ok (), false, false, false, 5⟩
          ⟨3, "k3@kindle.com", "m3@gmail.com", "pw", ["mon"], "09:00", none, none⟩
          ⟨[⟨101, 1, "https://a.example", none, none, some "x", none, ArticleStatus.queued, 0, none⟩,
            ⟨102, 2, "https://b.example", none, none, some "y", none, ArticleStatus.queued, 0, none⟩,
            ⟨103, 3, "https://c.example", none, none, some "z", none, ArticleStatus.queued, 0, none⟩],
           [], [], 0⟩) 3 := by
  refine ⟨?_, by decide, by decide, by decide, ?_⟩
  · exact (c5_unit_isolation
      ⟨true, false,
       [⟨1, "k1@kindle.com", "m1@gmail.com", "pw", ["mon"], "09:00", none, none⟩,
        ⟨2, "k2@kindle.com", "m2@gmail.com", "pw", ["mon"], "09:00", none, none⟩,
        ⟨3, "k3@kindle.com", "m3@gmail.com", "pw", ["mon"], "09:00", none, none⟩],
       fun _ => some ("Mon", some "9"), 0,
       fun u => if u = 2 then
          ⟨false, false, Except.error "assembly crash", true, Except.ok (), false, false, false, 5⟩
        else ⟨false, false, Except.ok (), false, Except.ok (), false, false, false, 5⟩⟩
      ⟨[⟨101, 1, "https://a.example", none, none, some "x", none, ArticleStatus.queued, 0, none⟩,
        ⟨102, 2, "https://b.example", none, none, some "y", none, ArticleStatus.queued, 0, none⟩,
        ⟨103, 3, "https://c.example", none, none, some "z", none, ArticleStatus.queued, 0, none⟩],
       [], [], 0⟩
      rfl rfl (by decide) (by decide) (by decide)).1
  · exact (c5_unit_isolation
      ⟨true, false,
       [⟨1, "k1@kindle.com", "m1@gmail.com", "pw", ["mon"], "09:00", none, none⟩,
        ⟨2, "k2@kindle.com", "m2@gmail.com", "pw", ["mon"], "09:00", none, none⟩,
        ⟨3, "k3@kindle.com", "m3@gmail.com", "pw", ["mon"], "09:00", none, none⟩],
       fun _ => some ("Mon", some "9"), 0,
       fun u => if u = 2 then
          ⟨false, false, Except.error "assembly crash", true, Except.ok (), false, false, false, 5⟩
        else ⟨false, false, Except.ok (), false, Except.ok (), false, false, false, 5⟩⟩
      ⟨[⟨101, 1, "https://a.example", none, none, some "x", none, ArticleStatus.queued, 0, none⟩,
        ⟨102, 2, "https://b.example", none, none, some "y", none, ArticleStatus.queued, 0, none⟩,
        ⟨103, 3, "https://c.example", none, none, some "z", none, ArticleStatus.queued, 0, none⟩],
       [], [], 0⟩
      rfl rfl (by decide) (by decide) (by decide)).2
      ⟨3, "k3@kindle.com", "m3@gmail.com", "pw", ["mon"], "09:00", none, none⟩
      (by decide)

end KindleSender
